import Mathlib

/-!
Verification of the fireplace controller core against its specification.

All Python floats are modelled as exact rationals (`ℚ`); NumPy arrays are
modelled as lists of lists of rationals.  Fallible operations return
`Except`.  The first part of the file embeds the source modules as Lean
definitions; the second part proves the specified properties about them.
-/

namespace Fireplace

/-! ## Matrix helpers -/

/-- Entry of a list-of-lists matrix at row `r`, column `y` (0 outside). -/
def matEntry (m : List (List ℚ)) (r y : ℕ) : ℚ :=
  (m.getD r []).getD y 0

/-! ## `lights/noise.py`: `quadratic_mask` -/

/-- Embedding of `quadratic_mask(size, initial_value, final_value)` from
`src/fireplace/lights/noise.py`: `a = (final - initial) / size[1]**2`,
`sign = final > initial` (a Python bool, i.e. 0 or 1),
`values[y] = initial + sign * a * y**2` for `y < size[1]`, and the matrix is
`size[0]` copies of `values`. -/
def quadratic_mask (size : ℕ × ℕ) (initial_value final_value : ℚ) :
    List (List ℚ) :=
  let a : ℚ := (final_value - initial_value) / ((size.2 : ℚ) ^ 2)
  let sign : ℚ := if initial_value < final_value then 1 else 0
  let values := (List.range size.2).map
    (fun y : ℕ => initial_value + sign * a * (y : ℚ) ^ 2)
  List.replicate size.1 values

/-! ## `rotary_encoder/rotary.py`: `Counter` -/

/-- Embedding of the `Counter` class.  Callbacks are modelled as an abstract
list of identifiers of type `α`; running the callbacks produces the trace of
invocations `(callback, argument)` in list order. -/
structure Counter (α : Type) where
  value : ℚ
  CLK_Last : Bool
  dtLastState : Bool
  step : ℚ
  range : ℚ × ℚ
  callbacks : List α
  deriving Repr, DecidableEq

/-- `Counter.run_callbacks`: calls every registered callback with the current
value; the result is the trace of invocations. -/
def Counter.run_callbacks (c : Counter α) : List (α × ℚ) :=
  c.callbacks.map (fun f => (f, c.value))

/-- `Counter.up`: `value = min(value + step, range[1])`, then run callbacks. -/
def Counter.up (c : Counter α) : Counter α × List (α × ℚ) :=
  let c' := { c with value := min (c.value + c.step) c.range.2 }
  (c', c'.run_callbacks)

/-- `Counter.down`: `value = max(value - step, range[0])`, then run
callbacks. -/
def Counter.down (c : Counter α) : Counter α × List (α × ℚ) :=
  let c' := { c with value := max (c.value - c.step) c.range.1 }
  (c', c'.run_callbacks)

/-- A finite sequence of encoder ticks. -/
inductive Tick where
  | up : Tick
  | down : Tick
  deriving Repr, DecidableEq

/-- Apply one tick to a counter (discarding the callback trace). -/
def Counter.applyTick (c : Counter α) : Tick → Counter α
  | Tick.up => c.up.1
  | Tick.down => c.down.1

/-- Apply a finite sequence of ticks to a counter. -/
def Counter.runTicks (c : Counter α) : List Tick → Counter α
  | [] => c
  | t :: ts => (c.applyTick t).runTicks ts

/-! ## `rotary_encoder/rotary.py`: `create_encoder_callback` -/

/-- State owned by the closure returned by `create_encoder_callback`:
the last trigger timestamp (milliseconds) and the shared counter. -/
structure EncoderState (α : Type) where
  last_trigger_time : ℚ
  counter : Counter α
  deriving Repr, DecidableEq

/-- Embedding of the `encoder_callback` closure from
`src/fireplace/rotary_encoder/rotary.py`.  `current_time` is in
milliseconds; `dt` and `clk` are the levels read from the two GPIO lines
(`GPIO.HIGH = true`).  Returns the new state together with the trace of
counter-callback invocations performed during the call. -/
def encoder_callback (debounce_ms : ℚ) (st : EncoderState α)
    (current_time : ℚ) (dt clk : Bool) : EncoderState α × List (α × ℚ) :=
  if current_time - st.last_trigger_time < debounce_ms then (st, [])
  else
    let st1 : EncoderState α := { st with last_trigger_time := current_time }
    let c := st1.counter
    let step1 : Counter α × List (α × ℚ) :=
      if clk ≠ dt then c.up
      else if dt ≠ c.dtLastState then c.down
      else (c, [])
    let c' := { step1.1 with CLK_Last := clk, dtLastState := dt }
    ({ st1 with counter := c' }, step1.2)

/-! ## `controller.py`: the `Fireplace` class -/

/-- Embedding of the mutable state of the `Fireplace` controller class.
Hardware handles (`pixels`, `audio_player`) and the worker thread are
modelled as opaque identifiers so that "unchanged" is expressible. -/
structure FireplaceState where
  running : Bool
  stop_event : Bool
  duration_seconds : Option ℚ
  fade_out_seconds : ℚ
  fade_start_volume : Option ℚ
  start_time : Option ℚ
  thread : Option ℕ
  pixels : Option ℕ
  audio_player : Option ℕ
  counter : Option (Counter ℕ)
  deriving Repr, DecidableEq

/-- Embedding of `Fireplace.start(duration_minutes, fade_out_minutes)`.
`now` is the current wall-clock time and `newThread` the identity the worker
thread would get if one were spawned.  Returns the new state and the boolean
result of the call. -/
def FireplaceState.start (s : FireplaceState) (now : ℚ) (newThread : ℕ)
    (duration_minutes fade_out_minutes : ℚ) : FireplaceState × Bool :=
  let new_duration := duration_minutes * 60
  let new_fade := min (fade_out_minutes * 60) new_duration
  if s.running then
    ({ s with
        duration_seconds := some new_duration
        fade_out_seconds := new_fade
        fade_start_volume := none
        start_time := some now }, true)
  else
    ({ s with
        running := true
        stop_event := false
        duration_seconds := some new_duration
        fade_out_seconds := new_fade
        fade_start_volume := none
        start_time := some now
        thread := some newThread }, true)

/-- Embedding of `Fireplace._apply_fade_out`, called with the current time
`now`.  Returns the updated state together with the trace of counter-callback
invocations (empty when the counter value was not applied). -/
def FireplaceState.apply_fade_out (s : FireplaceState) (now : ℚ) :
    FireplaceState × List (ℕ × ℚ) :=
  match s.counter, s.duration_seconds, s.start_time with
  | some c, some dur, some t0 =>
      if s.fade_out_seconds ≤ 0 then (s, [])
      else
        let remaining := dur - (now - t0)
        if s.fade_out_seconds < remaining then (s, [])
        else
          let anchor := s.fade_start_volume.getD c.value
          let fade_progress := 1 - remaining / s.fade_out_seconds
          let target_volume := anchor * (1 - fade_progress)
          if 1 ≤ |c.value - target_volume| then
            let c' := { c with value := target_volume }
            ({ s with fade_start_volume := some anchor, counter := some c' },
              c'.run_callbacks)
          else
            ({ s with fade_start_volume := some anchor }, [])
  | _, _, _ => (s, [])

/-- A running `Fireplace` state with counter `c`, duration `dur`, fade
window `fade`, fade anchor `anchor` and start time `t0`. -/
def fadeState (c : Counter ℕ) (dur fade : ℚ) (anchor : Option ℚ)
    (t0 : ℚ) : FireplaceState :=
  ⟨true, false, some dur, fade, anchor, some t0, some 0, some 0, some 0,
    some c⟩

/-! ## `lights/utils.py`: `ColorMap` -/

/-- An RGB color with integer channels. -/
abbrev Rgb := ℤ × ℤ × ℤ

/-- `np.round`: round to nearest integer, halves to the even integer. -/
def npRound (q : ℚ) : ℤ :=
  if q - ⌊q⌋ < 1 / 2 then ⌊q⌋
  else if 1 / 2 < q - ⌊q⌋ then ⌊q⌋ + 1
  else if 2 ∣ ⌊q⌋ then ⌊q⌋ else ⌊q⌋ + 1

/-- NumPy array indexing with a (possibly negative, Python-style) index. -/
def npGet (l : List Rgb) (i : ℤ) (d : Rgb) : Rgb :=
  if 0 ≤ i then l.getD i.toNat d else l.getD (i + l.length).toNat d

/-- `ColorMap.interpolate_two_colors` on a scalar `x`:
`round(color1 + (color2 - color1) * x)` channel-wise. -/
def interpolate_two_colors (x : ℚ) (c1 c2 : Rgb) : Rgb :=
  (npRound ((c1.1 : ℚ) + ((c2.1 : ℚ) - (c1.1 : ℚ)) * x),
    npRound ((c1.2.1 : ℚ) + ((c2.2.1 : ℚ) - (c1.2.1 : ℚ)) * x),
    npRound ((c1.2.2 : ℚ) + ((c2.2.2 : ℚ) - (c1.2.2 : ℚ)) * x))

/-- `ColorMap.gamma_correction` channel-wise, with the precomputed lookup
table abstracted as a function `g` on channel values. -/
def gammaRgb (g : ℤ → ℤ) (c : Rgb) : Rgb :=
  (g c.1, g c.2.1, g c.2.2)

/-- Embedding of `ColorMap.__call__` on one scalar temperature `x`:
clip to `[0,1]`; `start_color_index = floor(x * (ncols - 1))`;
`rebased_x = x * (ncols - 1) % 1`; interpolate between the extended
palette's entries at `start_color_index` and `start_color_index + 1`
(the extended palette `_palette` repeats the last entry once); gamma
correct the result. -/
def colorMap_call (g : ℤ → ℤ) (palette : List Rgb) (x : ℚ) : Rgb :=
  let xc := min (max x 0) 1
  let ncols := palette.length
  let ext := palette ++ [palette.getLastD (0, 0, 0)]
  let pos := xc * ((ncols : ℚ) - 1)
  let start_color_index : ℤ := ⌊pos⌋
  let rebased_x := pos - ⌊pos⌋
  gammaRgb g (interpolate_two_colors rebased_x
    (npGet ext start_color_index (0, 0, 0))
    (npGet ext (start_color_index + 1) (0, 0, 0)))

/-! ## `lights/utils.py`: `ColorMap.generate_gamma_correction_table` -/

/-- Embedding of `generate_gamma_correction_table`: for `v` in `0..255`,
`int(255 * (v / 255) ** gamma)` — Python `int()` truncates, which on these
nonnegative values is the floor. -/
noncomputable def gamma_correction_table (γ : ℝ) : List ℤ :=
  (List.range 256).map (fun v : ℕ => ⌊(255 : ℝ) * (((v : ℕ) : ℝ) / 255) ^ γ⌋)

/-- The table entry the specification describes:
`round(255 × (v/255)^gamma)`, rounding to the nearest integer. -/
noncomputable def gamma_round_entry (γ : ℝ) (v : ℕ) : ℤ :=
  round ((255 : ℝ) * (((v : ℕ) : ℝ) / 255) ^ γ)

/-! ## `lights/noise.py`: `PerlinNoise`

Trigonometry, π and NumPy's seeded global random generator are modelled as
parameters (`cosF`, `sinF`, `piV`; a state type `Rng` with `seedFn` for
`np.random.seed` and `rand` for `np.random.rand(n, m)`): the embedding is
exact rational arithmetic over whatever values those produce, which is all
the determinism and round-trip claims depend on. -/

/-- Elementwise unary map over a matrix. -/
def matMap (f : ℚ → ℚ) (m : List (List ℚ)) : List (List ℚ) :=
  m.map (fun row => row.map f)

/-- Elementwise binary combination of two matrices of the same shape. -/
def matZip (f : ℚ → ℚ → ℚ) (a b : List (List ℚ)) : List (List ℚ) :=
  List.zipWith (List.zipWith f) a b

/-- The state built by `PerlinNoise.__init__`. -/
structure PerlinNoise where
  shape : ℕ × ℕ
  repetition_period : ℕ
  angles : List (List ℚ)
  node_vectors : List (List (ℚ × ℚ))
  deriving Repr, DecidableEq

/-- `np.linspace(0, stop, num)`: `num` evenly spaced points from 0 to
`stop`, endpoint included. -/
def linspace (stop : ℚ) (num : ℕ) : List ℚ :=
  if num ≤ 1 then List.replicate num 0
  else (List.range num).map (fun i : ℕ => stop * i / ((num : ℚ) - 1))

/-- Embedding of `PerlinNoise.__init__(shape, repetition_period, seed)`:
seed the global generator (discarding its previous state `g`), draw a
`(P+1)×(P+1)` matrix of uniform values, scale by `2π` into angles and take
`(cos, sin)` of each angle as the node gradient vectors.  Returns the
constructed object and the new global generator state. -/
def PerlinNoise.create (Rng : Type) (seedFn : ℕ → Rng)
    (rand : Rng → ℕ → ℕ → List (List ℚ) × Rng) (piV : ℚ)
    (cosF sinF : ℚ → ℚ) (_g : Rng) (shape : ℕ × ℕ)
    (repetition_period : ℕ) (seed : ℕ) : PerlinNoise × Rng :=
  let g1 := seedFn seed
  let drawn := rand g1 (repetition_period + 1) (repetition_period + 1)
  let angles := matMap (fun v => 2 * piV * v) drawn.1
  let node_vectors := angles.map (fun row => row.map (fun a => (cosF a, sinF a)))
  (⟨shape, repetition_period, angles, node_vectors⟩, drawn.2)

/-- `PerlinNoise.smooth_step`. -/
def smooth_step (t : ℚ) : ℚ :=
  6 * t ^ 5 - 15 * t ^ 4 + 10 * t ^ 3

/-- `node_vectors[a, b]` with the (nonnegative, already wrapped) indices. -/
def nodeVecAt (nv : List (List (ℚ × ℚ))) (a b : ℤ) : ℚ × ℚ :=
  (nv.getD a.toNat []).getD b.toNat (0, 0)

/-- Embedding of `PerlinNoise.generate_perlin_noise_2d(cell_size,
pixel_offset)`, element by element over the `meshgrid(..., indexing="ij")`
grid: pixel axes are `linspace(0, shape/cell, shape) + offset/cell`; corner
indices wrap modulo the repetition period; corner dot products are smoothed
with `smooth_step` and bilinearly interpolated. -/
def PerlinNoise.generate_perlin_noise_2d (p : PerlinNoise)
    (cell_size : ℚ × ℚ) (pixel_offset : ℤ × ℤ) : List (List ℚ) :=
  let periods : ℚ × ℚ :=
    ((p.shape.1 : ℚ) / cell_size.1, (p.shape.2 : ℚ) / cell_size.2)
  let delta : ℚ × ℚ := (1 / cell_size.1, 1 / cell_size.2)
  let xs := (linspace periods.1 p.shape.1).map
    (fun v => v + delta.1 * pixel_offset.1)
  let ys := (linspace periods.2 p.shape.2).map
    (fun v => v + delta.2 * pixel_offset.2)
  xs.map (fun x : ℚ => ys.map (fun y : ℚ =>
    let xf : ℤ := ⌊x⌋ % (p.repetition_period : ℤ)
    let xc : ℤ := ⌈x⌉ % (p.repetition_period : ℤ)
    let yf : ℤ := ⌊y⌋ % (p.repetition_period : ℤ)
    let yc : ℤ := ⌈y⌉ % (p.repetition_period : ℤ)
    let g00 := nodeVecAt p.node_vectors xf yf
    let g10 := nodeVecAt p.node_vectors xc yf
    let g01 := nodeVecAt p.node_vectors xf yc
    let g11 := nodeVecAt p.node_vectors xc yc
    let ix : ℚ := x - (⌊x⌋ : ℚ)
    let iy : ℚ := y - (⌊y⌋ : ℚ)
    let n00 := ix * g00.1 + iy * g00.2
    let n10 := (ix - 1) * g10.1 + iy * g10.2
    let n01 := ix * g01.1 + (iy - 1) * g01.2
    let n11 := (ix - 1) * g11.1 + (iy - 1) * g11.2
    let sx := smooth_step ix
    let sy := smooth_step iy
    let n0 := n00 * (1 - sx) + sx * n10
    let n1 := n01 * (1 - sx) + sx * n11
    (1 - sy) * n0 + sy * n1))

/-- `PerlinNoise.clip`: `np.clip(noise, 0, 1)` elementwise. -/
def PerlinNoise.clip (noise : List (List ℚ)) : List (List ℚ) :=
  matMap (fun v => min (max v 0) 1) noise

/-- `PerlinNoise.postprocess`: `clip(1.2 * (noise + 0.45))`. -/
def PerlinNoise.postprocess (noise : List (List ℚ)) : List (List ℚ) :=
  PerlinNoise.clip (matMap (fun v => (1.2 : ℚ) * (v + (0.45 : ℚ))) noise)

/-- `np.zeros(shape)`. -/
def zerosMat (shape : ℕ × ℕ) : List (List ℚ) :=
  List.replicate shape.1 (List.replicate shape.2 0)

/-- The octave summation loop of `PerlinNoise.render`: at each octave the
cell size is `(size, size * relative_factor)`; the loop stops early when
the smaller cell dimension drops below 1; otherwise it adds
`amplitude * new_noise`, halves `size` (integer division) and scales
`amplitude` by `persistence`. -/
def PerlinNoise.render_go (p : PerlinNoise) (pixel_offset : ℤ × ℤ)
    (persistence relative_factor : ℚ) :
    ℕ → ℕ → ℚ → List (List ℚ) → List (List ℚ)
  | 0, _, _, noise => noise
  | m + 1, size, amplitude, noise =>
      let cell_size : ℚ × ℚ := ((size : ℚ), (size : ℚ) * relative_factor)
      if min cell_size.1 cell_size.2 < 1 then noise
      else
        let new_noise := p.generate_perlin_noise_2d cell_size pixel_offset
        p.render_go pixel_offset persistence relative_factor m (size / 2)
          (amplitude * persistence)
          (matZip (fun a b => a + amplitude * b) noise new_noise)

/-- Embedding of `PerlinNoise.render(octaves, pixel_offset, persistence,
relative_factor)`. -/
def PerlinNoise.render (p : PerlinNoise) (octaves : ℕ)
    (pixel_offset : ℤ × ℤ) (persistence relative_factor : ℚ) :
    List (List ℚ) :=
  PerlinNoise.postprocess
    (p.render_go pixel_offset persistence relative_factor octaves
      (min p.shape.1 p.shape.2) 1 (zerosMat p.shape))

/-! ## `lights/noise.py`: `load_noise` and `generate_noise_files` -/

/-- The ways `load_noise` can raise: the failed `assert index < len(files)`,
a Python `IndexError` from `files[index]`, and the `ValueError` that
`random.randint(0, -1)` raises on an empty directory. -/
inductive LoadError where
  | assertionError : LoadError
  | indexError : LoadError
  | valueError : LoadError
  deriving Repr, DecidableEq

/-- Python list indexing `l[i]`: negative indices count from the end;
anything out of `[-len, len)` raises `IndexError`. -/
def pyListGet (l : List α) (i : ℤ) : Except LoadError α :=
  if h : 0 ≤ i ∧ i < l.length then
    Except.ok (l.get ⟨i.toNat, by omega⟩)
  else if h' : i < 0 ∧ 0 ≤ i + l.length then
    Except.ok (l.get ⟨(i + l.length).toNat, by omega⟩)
  else Except.error LoadError.indexError

/-- Embedding of `load_noise(dir, index)` with a supplied index: `files`
is the directory listing; `assert index < len(files)`; then `files[index]`
with Python indexing.  (Deserialisation of the chosen file is the
identity on the stored value.) -/
def load_noise (files : List α) (index : ℤ) : Except LoadError α :=
  if index < (files.length : ℤ) then pyListGet files index
  else Except.error LoadError.assertionError

/-- Embedding of `load_noise(dir)` with no index supplied: `index =
random.randint(0, len(files) - 1)` raises `ValueError` when the directory
is empty; the drawn index is a parameter. -/
def load_noise_random (files : List α) (draw : ℤ) : Except LoadError α :=
  if files.length = 0 then Except.error LoadError.valueError
  else load_noise files draw

/-- Embedding of `generate_noise_files(dir, n_files, length, width)`:
for each file number, build a `PerlinNoise` with shape `(length, width)`,
repetition period `length` and a fresh random seed (the successive draws of
`random.randint(0, 20000)` are the `seeds` parameter, one per file), render
it with `octaves=4`, `relative_factor=0.5` (persistence default `0.5`,
offset `(0, 0)`), and save the field as `noise_{file_no}.npy`.  The result
is the list of saved fields in generation (= file-number) order. -/
def generate_noise_files (Rng : Type) (seedFn : ℕ → Rng)
    (rand : Rng → ℕ → ℕ → List (List ℚ) × Rng) (piV : ℚ)
    (cosF sinF : ℚ → ℚ) (g : Rng) (seeds : List ℕ) (len width : ℕ) :
    List (List (List ℚ)) :=
  seeds.map (fun seed =>
    ((PerlinNoise.create Rng seedFn rand piV cosF sinF g (len, width) len
      seed).1).render 4 (0, 0) (0.5 : ℚ) (0.5 : ℚ))

/-- `os.listdir` over the directory written by `generate_noise_files`:
returns the stored fields in an arbitrary listing order, given by `order`
(the generation index of the file at each listing position).  `np.load` of
a listed file yields the stored field unchanged. -/
def listdir_fields (fields : List (List (List ℚ))) (order : List ℕ) :
    List (List (List ℚ)) :=
  order.map (fun j => fields.getD j [])

/-- `load_noise` applied to the directory written by
`generate_noise_files`, whose listing order is `order`. -/
def noise_store_load (fields : List (List (List ℚ))) (order : List ℕ)
    (index : ℤ) : Except LoadError (List (List ℚ)) :=
  load_noise (listdir_fields fields order) index

/-- A toy global-generator model used for concrete evaluation: seeding
stores the seed, and `rand(n, m)` returns the `n×m` matrix with entry
`(s + 2i + 3j)/7` at position `(i, j)`. -/
def toyRand (s n m : ℕ) : List (List ℚ) × ℕ :=
  ((List.range n).map (fun i => (List.range m).map
    (fun j => ((s + 2 * i + 3 * j : ℕ) : ℚ) / 7)), s)

end Fireplace

namespace Fireplace

/-! ## Theorems -/

theorem matEntry_quadratic_mask (size : ℕ × ℕ) (iv fv : ℚ) (r y : ℕ)
    (hr : r < size.1) (hy : y < size.2) :
    matEntry (quadratic_mask size iv fv) r y =
      iv + (if iv < fv then 1 else 0) *
        ((fv - iv) / ((size.2 : ℚ) ^ 2)) * (y : ℚ) ^ 2 := by
  simp only [matEntry, quadratic_mask, List.getD_eq_getElem?_getD]
  rw [List.getElem?_replicate, if_pos hr]
  simp only [Option.getD_some]
  rw [List.getElem?_map, List.getElem?_range hy]
  simp

/-- C10: for every size `(rows, cols)`, the entry of
`quadratic_mask(size, initial, final)` in row `r`, column `y` equals
`initial + s·a·y²` with `a = (final − initial)/cols²` and `s` the boolean
`final > initial`; when `final ≤ initial` every entry equals `initial`
exactly, and entries are constant along each column. -/
theorem quadratic_mask_spec (size : ℕ × ℕ) (iv fv : ℚ) (r y : ℕ)
    (hr : r < size.1) (hy : y < size.2) :
    matEntry (quadratic_mask size iv fv) r y =
      iv + (if iv < fv then 1 else 0) *
        ((fv - iv) / ((size.2 : ℚ) ^ 2)) * (y : ℚ) ^ 2 ∧
    (fv ≤ iv → matEntry (quadratic_mask size iv fv) r y = iv) ∧
    (∀ r' : ℕ, r' < size.1 →
      matEntry (quadratic_mask size iv fv) r y =
        matEntry (quadratic_mask size iv fv) r' y) := by
  refine ⟨matEntry_quadratic_mask size iv fv r y hr hy, ?_, ?_⟩
  · intro hle
    rw [matEntry_quadratic_mask size iv fv r y hr hy, if_neg (not_lt.mpr hle)]
    ring
  · intro r' hr'
    rw [matEntry_quadratic_mask size iv fv r y hr hy,
      matEntry_quadratic_mask size iv fv r' y hr' hy]

/-- Witness for C10 at size (2,3), initial 1, final 4, row 0, column 2:
the hypotheses hold and the entry is 1 + 1·((4−1)/9)·4 = 7/3. -/
theorem quadratic_mask_spec_witness :
    0 < (2, 3).1 ∧ 2 < (2, 3).2 ∧
      matEntry (quadratic_mask (2, 3) 1 4) 0 2 =
        1 + (if (1 : ℚ) < 4 then 1 else 0) *
          (((4 : ℚ) - 1) / (((2, 3).2 : ℚ) ^ 2)) * ((2 : ℕ) : ℚ) ^ 2 :=
  ⟨by decide, by decide,
    (quadratic_mask_spec (2, 3) 1 4 0 2 (by decide) (by decide)).1⟩

theorem Counter.applyTick_range (c : Counter α) (t : Tick) :
    (c.applyTick t).range = c.range := by
  cases t <;> rfl

theorem Counter.applyTick_step (c : Counter α) (t : Tick) :
    (c.applyTick t).step = c.step := by
  cases t <;> rfl

theorem Counter.applyTick_bounds (c : Counter α) (t : Tick)
    (hstep : 0 ≤ c.step) (hlo : c.range.1 ≤ c.value)
    (hhi : c.value ≤ c.range.2) :
    c.range.1 ≤ (c.applyTick t).value ∧ (c.applyTick t).value ≤ c.range.2 := by
  have hlohi : c.range.1 ≤ c.range.2 := le_trans hlo hhi
  cases t with
  | up =>
      refine ⟨le_min ?_ hlohi, min_le_right _ _⟩
      calc c.range.1 ≤ c.value := hlo
        _ ≤ c.value + c.step := by linarith
  | down =>
      refine ⟨le_max_right _ _, max_le ?_ hlohi⟩
      calc c.value - c.step ≤ c.value := by linarith
        _ ≤ c.range.2 := hhi

theorem Counter.runTicks_bounds (c : Counter α) (ts : List Tick)
    (hstep : 0 ≤ c.step) (hlo : c.range.1 ≤ c.value)
    (hhi : c.value ≤ c.range.2) :
    c.range.1 ≤ (c.runTicks ts).value ∧
      (c.runTicks ts).value ≤ c.range.2 ∧
      (c.runTicks ts).range = c.range := by
  induction ts generalizing c with
  | nil => exact ⟨hlo, hhi, rfl⟩
  | cons t ts ih =>
      have hb := c.applyTick_bounds t hstep hlo hhi
      have hr := c.applyTick_range t
      have hs := c.applyTick_step t
      have := ih (c.applyTick t) (hs ▸ hstep) (hr ▸ hb.1) (hr ▸ hb.2)
      simpa [Counter.runTicks, hr] using this

/-- C3: a counter whose initial value lies inside its `[min, max]` range (and
whose step size is nonnegative) stays inside the range after every finite
sequence of `up()`/`down()` calls, and each single `up()` (resp. `down()`)
call invokes every registered callback exactly once, in registration order,
with the new (clamped) value. -/
theorem counter_range_and_callbacks {α : Type} (c : Counter α)
    (ts : List Tick) (hstep : 0 ≤ c.step) (hlo : c.range.1 ≤ c.value)
    (hhi : c.value ≤ c.range.2) :
    (c.range.1 ≤ (c.runTicks ts).value ∧
      (c.runTicks ts).value ≤ c.range.2) ∧
    c.up.2 = c.callbacks.map (fun f => (f, min (c.value + c.step) c.range.2)) ∧
    c.down.2 =
      c.callbacks.map (fun f => (f, max (c.value - c.step) c.range.1)) := by
  obtain ⟨h1, h2, -⟩ := c.runTicks_bounds ts hstep hlo hhi
  exact ⟨⟨h1, h2⟩, rfl, rfl⟩

/-- Witness for C3: the counter used by the controller (value 80, step 2,
range [0,100], two callbacks) after the tick sequence `[up, up, down]`. -/
theorem counter_range_and_callbacks_witness :
    ((0 : ℚ) ≤ 2 ∧ (0 : ℚ) ≤ 80 ∧ (80 : ℚ) ≤ 100) ∧
    (((⟨80, true, true, 2, (0, 100), [0, 1]⟩ : Counter ℕ).runTicks
        [Tick.up, Tick.up, Tick.down]).value ≤ 100) :=
  ⟨⟨by norm_num, by norm_num, by norm_num⟩,
    ((counter_range_and_callbacks (⟨80, true, true, 2, (0, 100), [0, 1]⟩ :
        Counter ℕ) [Tick.up, Tick.up, Tick.down] (by norm_num) (by norm_num)
        (by norm_num)).1).2⟩

/-- C1: while running with `fade > 0`, remaining time `≤ fade` and the
anchor `A` already captured, `_apply_fade_out` computes the target
`A × (remaining / fade)`, sets the counter to it (running all its callbacks
with the target) exactly when the current value differs from the target by
at least one unit, and leaves the anchor at `A`; on first entry into the
window (anchor absent) the anchor is captured as the current counter value;
at `remaining = fade/2` the target is `A × 1/2` and at `remaining = 0` it is
`0`. -/
theorem apply_fade_out_spec (c : Counter ℕ) (A dur t0 fade now : ℚ)
    (hfade : 0 < fade) (hrem : dur - (now - t0) ≤ fade) :
    (((fadeState c dur fade (some A) t0).apply_fade_out now).1.counter.map
        Counter.value) =
      some (if 1 ≤ |c.value - A * ((dur - (now - t0)) / fade)|
        then A * ((dur - (now - t0)) / fade) else c.value) ∧
    ((fadeState c dur fade (some A) t0).apply_fade_out now).2 =
      (if 1 ≤ |c.value - A * ((dur - (now - t0)) / fade)|
        then c.callbacks.map
          (fun f => (f, A * ((dur - (now - t0)) / fade)))
        else []) ∧
    ((fadeState c dur fade (some A) t0).apply_fade_out now).1.fade_start_volume
      = some A ∧
    ((fadeState c dur fade none t0).apply_fade_out now).1.fade_start_volume
      = some c.value ∧
    (dur - (now - t0) = fade / 2 →
      A * ((dur - (now - t0)) / fade) = A * (1 / 2)) ∧
    (dur - (now - t0) = 0 → A * ((dur - (now - t0)) / fade) = 0) := by
  have h0 : ¬ fade ≤ 0 := not_le.mpr hfade
  have h1 : ¬ fade < dur - (now - t0) := not_lt.mpr hrem
  have htarget : A * (1 - (1 - (dur - (now - t0)) / fade)) =
      A * ((dur - (now - t0)) / fade) := by ring
  refine ⟨?_, ?_, ?_, ?_, ?_, ?_⟩
  · simp only [fadeState, FireplaceState.apply_fade_out, h0, if_false, h1,
      Option.getD_some, htarget]
    split <;> simp
  · simp only [fadeState, FireplaceState.apply_fade_out, h0, if_false, h1,
      Option.getD_some, htarget]
    split <;> simp [Counter.run_callbacks]
  · simp only [fadeState, FireplaceState.apply_fade_out, h0, if_false, h1,
      Option.getD_some]
    split <;> simp
  · simp only [fadeState, FireplaceState.apply_fade_out, h0, if_false, h1,
      Option.getD_none]
    split <;> simp
  · intro h
    rw [h]
    field_simp
    ring
  · intro h
    rw [h]
    ring

/-- Witness for C1, matching the spec's example: duration 600 s, fade
window 120 s, anchor 80 captured, current value 80, checked at
`now = 540` (remaining 60 s): the target is `80 × (60/120) = 40` and the
counter is set to it. -/
theorem apply_fade_out_spec_witness :
    ((0 : ℚ) < 120 ∧ (600 : ℚ) - (540 - 0) ≤ 120) ∧
    (((fadeState ⟨80, true, true, 2, (0, 100), [0, 1]⟩ 600 120 (some 80)
        0).apply_fade_out 540).1.counter.map Counter.value) =
      some (if 1 ≤ |(⟨80, true, true, 2, (0, 100), [0, 1]⟩ :
          Counter ℕ).value - 80 * (((600 : ℚ) - (540 - 0)) / 120)|
        then 80 * (((600 : ℚ) - (540 - 0)) / 120)
        else (⟨80, true, true, 2, (0, 100), [0, 1]⟩ : Counter ℕ).value) :=
  ⟨⟨by norm_num, by norm_num⟩,
    (apply_fade_out_spec ⟨80, true, true, 2, (0, 100), [0, 1]⟩ 80 600 0 120
      540 (by norm_num) (by norm_num)).1⟩

/-- C4: calling `start` on a controller that is already running performs a
live update only: duration becomes `duration_minutes × 60`, the fade window
becomes `min(fade_out_minutes × 60, new_duration)`, the fade anchor is
cleared, `start_time` is reset to `now`, the call returns `True`, and the
worker thread, running flag, stop event, counter and hardware handles are
all left unchanged. -/
theorem start_while_running_spec (s : FireplaceState) (now : ℚ) (nt : ℕ)
    (dm fm : ℚ) (h : s.running = true) :
    (s.start now nt dm fm).2 = true ∧
    (s.start now nt dm fm).1.duration_seconds = some (dm * 60) ∧
    (s.start now nt dm fm).1.fade_out_seconds = min (fm * 60) (dm * 60) ∧
    (s.start now nt dm fm).1.fade_start_volume = none ∧
    (s.start now nt dm fm).1.start_time = some now ∧
    (s.start now nt dm fm).1.thread = s.thread ∧
    (s.start now nt dm fm).1.running = s.running ∧
    (s.start now nt dm fm).1.stop_event = s.stop_event ∧
    (s.start now nt dm fm).1.counter = s.counter ∧
    (s.start now nt dm fm).1.pixels = s.pixels ∧
    (s.start now nt dm fm).1.audio_player = s.audio_player := by
  simp [FireplaceState.start, h]

/-- Witness for C4, matching the spec's example: `start(30)` has produced a
running state; `start(45, fade=5)` while running keeps the thread identity
and sets duration 2700 s, fade window 300 s. -/
theorem start_while_running_spec_witness :
    ((fadeState ⟨80, true, true, 2, (0, 100), [0, 1]⟩ 1800 600 none
        0).running = true) ∧
    ((fadeState ⟨80, true, true, 2, (0, 100), [0, 1]⟩ 1800 600 none
        0).start 100 7 45 5).1.thread =
      (fadeState ⟨80, true, true, 2, (0, 100), [0, 1]⟩ 1800 600 none
        0).thread ∧
    ((fadeState ⟨80, true, true, 2, (0, 100), [0, 1]⟩ 1800 600 none
        0).start 100 7 45 5).1.fade_out_seconds = min (5 * 60) (45 * 60) :=
  ⟨rfl,
    (start_while_running_spec (fadeState ⟨80, true, true, 2, (0, 100),
      [0, 1]⟩ 1800 600 none 0) 100 7 45 5 rfl).2.2.2.2.2.1,
    (start_while_running_spec (fadeState ⟨80, true, true, 2, (0, 100),
      [0, 1]⟩ 1800 600 none 0) 100 7 45 5 rfl).2.2.1⟩

/-- C9 counterexample: an invocation that passes the debounce check on a
rising edge of the clock line (stored clock level LOW, read clock level
HIGH) with the data line LOW produces an `up` tick — the counter moves from
10 to 12 and its callback runs — so ticks are not restricted to falling
edges of the clock line. -/
theorem encoder_rising_edge_counterexample :
    ¬ ((10 : ℚ) - 0 < 2) ∧
    (⟨10, false, true, 2, (0, 100), [5]⟩ : Counter ℕ).CLK_Last = false ∧
    (encoder_callback 2 ⟨0, ⟨10, false, true, 2, (0, 100), [5]⟩⟩ 10
      false true).2 = [(5, 12)] ∧
    (encoder_callback 2 ⟨0, ⟨10, false, true, 2, (0, 100), [5]⟩⟩ 10
      false true).1.counter.value = 12 := by
  refine ⟨by norm_num, rfl, ?_, ?_⟩ <;>
    simp [encoder_callback, Counter.up, Counter.run_callbacks] <;> norm_num

/-- C9 (amended): on every invocation that passes the debounce check the
callback reads both lines and produces an `up` tick exactly when the clock
and data levels differ at that instant — on rising edges of the clock line
as well as falling ones, since the handler is registered for both edges —
and otherwise a `down` tick exactly when the data level differs from the
stored last data level; when neither condition holds no tick is produced;
the stored line levels are then updated to the levels just read and the
trigger timestamp to the current time. -/
theorem encoder_callback_spec {α : Type} (c : Counter α)
    (lt t debounce : ℚ) (dt clk : Bool) (hdeb : debounce ≤ t - lt) :
    (encoder_callback debounce ⟨lt, c⟩ t dt clk).1.last_trigger_time = t ∧
    (clk ≠ dt →
      (encoder_callback debounce ⟨lt, c⟩ t dt clk).2 =
        c.callbacks.map (fun f => (f, min (c.value + c.step) c.range.2)) ∧
      (encoder_callback debounce ⟨lt, c⟩ t dt clk).1.counter.value =
        min (c.value + c.step) c.range.2) ∧
    (clk = dt → dt ≠ c.dtLastState →
      (encoder_callback debounce ⟨lt, c⟩ t dt clk).2 =
        c.callbacks.map (fun f => (f, max (c.value - c.step) c.range.1)) ∧
      (encoder_callback debounce ⟨lt, c⟩ t dt clk).1.counter.value =
        max (c.value - c.step) c.range.1) ∧
    (clk = dt → dt = c.dtLastState →
      (encoder_callback debounce ⟨lt, c⟩ t dt clk).2 = [] ∧
      (encoder_callback debounce ⟨lt, c⟩ t dt clk).1.counter.value =
        c.value) ∧
    (encoder_callback debounce ⟨lt, c⟩ t dt clk).1.counter.CLK_Last = clk ∧
    (encoder_callback debounce ⟨lt, c⟩ t dt clk).1.counter.dtLastState =
      dt := by
  have h : ¬ (t - lt < debounce) := not_lt.mpr hdeb
  cases clk <;> cases dt <;>
    cases hdts : c.dtLastState <;>
      simp [encoder_callback, h, hdts, Counter.up, Counter.down,
        Counter.run_callbacks]

theorem npRound_intCast (k : ℤ) : npRound (k : ℚ) = k := by
  simp [npRound]

theorem interpolate_two_colors_zero (c1 c2 : Rgb) :
    interpolate_two_colors 0 c1 c2 = c1 := by
  simp [interpolate_two_colors, npRound_intCast]

theorem getD_length_sub_one {α : Type} (l : List α) (d : α) (h : l ≠ []) :
    l.getD (l.length - 1) d = l.getLastD d := by
  induction l with
  | nil => exact absurd rfl h
  | cons a t ih =>
      cases t with
      | nil => rfl
      | cons b t' =>
          have hlen : (a :: b :: t').length - 1 = ((b :: t').length - 1) + 1 := by
            simp [List.length_cons]
          rw [hlen, List.getD_cons_succ, ih (by simp)]
          simp [List.getLastD]

/-- C2: for every palette with at least two entries, applying the color map
to `0.0` yields the gamma-corrected first palette entry and applying it to
`1.0` yields the gamma-corrected last palette entry (the extended palette
keeps index `start_index + 1` in bounds at temperature 1). -/
theorem colorMap_call_endpoints (g : ℤ → ℤ) (palette : List Rgb)
    (h : 2 ≤ palette.length) :
    colorMap_call g palette 0 = gammaRgb g (palette.getD 0 (0, 0, 0)) ∧
    colorMap_call g palette 1 = gammaRgb g (palette.getLastD (0, 0, 0)) := by
  have h0 : (0 : ℕ) < palette.length := by omega
  constructor
  · simp only [colorMap_call]
    rw [show min (max (0 : ℚ) 0) 1 = 0 by norm_num, zero_mul, Int.floor_zero]
    norm_num [npGet, interpolate_two_colors_zero,
      List.getD_append _ _ _ _ h0]
    simp [List.getElem_append_left h0, List.getElem?_eq_getElem h0]
  · simp only [colorMap_call]
    rw [show min (max (1 : ℚ) 0) 1 = 1 by norm_num, one_mul]
    rw [show ((palette.length : ℚ) - 1) =
      (((palette.length : ℤ) - 1 : ℤ) : ℚ) by push_cast; ring]
    rw [Int.floor_intCast]
    have hn1 : ((palette.length : ℤ) - 1).toNat = palette.length - 1 := by
      omega
    have hlt : palette.length - 1 < palette.length := by omega
    rw [sub_self, interpolate_two_colors_zero]
    rw [npGet, if_pos (by omega : (0 : ℤ) ≤ (palette.length : ℤ) - 1), hn1,
      List.getD_append _ _ _ _ hlt,
      getD_length_sub_one palette _ (by intro he; rw [he] at h; simp at h)]

/-- Witness for C2 on a two-color palette with a concrete gamma map. -/
theorem colorMap_call_endpoints_witness :
    2 ≤ ([((10 : ℤ), (20 : ℤ), (30 : ℤ)), (40, 50, 60)] : List Rgb).length ∧
    colorMap_call (fun z => z * 2)
        [((10 : ℤ), (20 : ℤ), (30 : ℤ)), (40, 50, 60)] 0 =
      gammaRgb (fun z => z * 2)
        (([((10 : ℤ), (20 : ℤ), (30 : ℤ)), (40, 50, 60)] :
          List Rgb).getD 0 (0, 0, 0)) :=
  ⟨by decide,
    (colorMap_call_endpoints (fun z => z * 2)
      [((10 : ℤ), (20 : ℤ), (30 : ℤ)), (40, 50, 60)] (by decide)).1⟩

/-- C7 counterexample: at gamma 2 and `v = 20` the code's table stores
`int(255 × (20/255)²) = 1` while the claimed `round(255 × (20/255)²)`
is `2`. -/
theorem gamma_table_round_counterexample :
    (gamma_correction_table 2).getD 20 0 = 1 ∧
    gamma_round_entry 2 20 = 2 ∧
    (gamma_correction_table 2).getD 20 0 ≠ gamma_round_entry 2 20 := by
  have hv : (20 : ℕ) < 256 := by norm_num
  have hx : (255 : ℝ) * (((20 : ℕ) : ℝ) / 255) ^ (2 : ℝ) = 80 / 51 := by
    rw [show ((2 : ℝ)) = ((2 : ℕ) : ℝ) by norm_num, Real.rpow_natCast]
    norm_num
  have h1 : (gamma_correction_table 2).getD 20 0 = 1 := by
    have hv' : (gamma_correction_table 2).getD 20 0 =
        ⌊(255 : ℝ) * (((20 : ℕ) : ℝ) / 255) ^ (2 : ℝ)⌋ := by
      simp only [gamma_correction_table, List.getD_eq_getElem?_getD,
        List.getElem?_map, List.getElem?_range hv]
      rfl
    rw [hv', hx, Int.floor_eq_iff]
    norm_num
  have h2 : gamma_round_entry 2 20 = 2 := by
    rw [gamma_round_entry, hx, round_eq, Int.floor_eq_iff]
    norm_num
  exact ⟨h1, h2, by rw [h1, h2]; norm_num⟩

/-- C7 (amended): for every gamma and every `v < 256`, the table entry is
the truncation `⌊255 × (v/255)^gamma⌋` (Python `int()` on a nonnegative
float), not the nearest-integer rounding; it lies within one unit below the
claimed rounded value. -/
theorem gamma_table_spec (γ : ℝ) (v : ℕ) (h : v < 256) :
    (gamma_correction_table γ).getD v 0 =
      ⌊(255 : ℝ) * ((v : ℝ) / 255) ^ γ⌋ ∧
    (gamma_correction_table γ).getD v 0 ≤ gamma_round_entry γ v ∧
    gamma_round_entry γ v ≤ (gamma_correction_table γ).getD v 0 + 1 := by
  have he : (gamma_correction_table γ).getD v 0 =
      ⌊(255 : ℝ) * ((v : ℝ) / 255) ^ γ⌋ := by
    simp only [gamma_correction_table, List.getD_eq_getElem?_getD,
      List.getElem?_map, List.getElem?_range h]
    rfl
  refine ⟨he, ?_, ?_⟩
  · rw [he, gamma_round_entry, round_eq]
    exact Int.floor_le_floor (by linarith)
  · rw [he, gamma_round_entry, round_eq]
    calc ⌊(255 : ℝ) * ((v : ℝ) / 255) ^ γ + 1 / 2⌋
        ≤ ⌊(255 : ℝ) * ((v : ℝ) / 255) ^ γ + 1⌋ :=
          Int.floor_le_floor (by linarith)
      _ = ⌊(255 : ℝ) * ((v : ℝ) / 255) ^ γ⌋ + 1 := by
          rw [Int.floor_add_one]

/-- Witness for C7's amended theorem at gamma 1, `v = 255`: the entry is
`⌊255 × (255/255)^1⌋`. -/
theorem gamma_table_spec_witness :
    (255 : ℕ) < 256 ∧
    (gamma_correction_table 1).getD 255 0 =
      ⌊(255 : ℝ) * (((255 : ℕ) : ℝ) / 255) ^ (1 : ℝ)⌋ :=
  ⟨by norm_num, (gamma_table_spec 1 255 (by norm_num)).1⟩

/-- C5: the noise generator is deterministic as a two-run property — two
generators constructed with the same seed, shape and repetition period
(under arbitrary, possibly different, prior global-generator states `g₁`,
`g₂`: `np.random.seed(seed)` discards them) render bit-identical fields for
the same octaves, pixel offset, persistence and relative factor. -/
theorem render_deterministic (Rng : Type) (seedFn : ℕ → Rng)
    (rand : Rng → ℕ → ℕ → List (List ℚ) × Rng) (piV : ℚ)
    (cosF sinF : ℚ → ℚ) (g₁ g₂ : Rng) (shape : ℕ × ℕ) (period seed : ℕ)
    (octaves : ℕ) (offset : ℤ × ℤ) (persistence relative_factor : ℚ) :
    ((PerlinNoise.create Rng seedFn rand piV cosF sinF g₁ shape period
        seed).1).render octaves offset persistence relative_factor =
      ((PerlinNoise.create Rng seedFn rand piV cosF sinF g₂ shape period
        seed).1).render octaves offset persistence relative_factor := rfl

/-- C6 counterexample: a directory with two stored files and the supplied
index `-1` — negative, so out of range according to the claim — does not
fail: Python list indexing counts from the end, `assert -1 < 2` passes, and
the last file is returned. -/
theorem load_noise_negative_index_counterexample :
    load_noise ([10, 20] : List ℚ) (-1) = Except.ok 20 ∧ (-1 : ℤ) < 0 := by
  constructor
  · rfl
  · decide

/-- C6 (amended): `load_noise` with a supplied index fails — with an
`AssertionError`/`IndexError`, not a NotFound error — exactly when the
index is at least the number of stored files or below minus that number
(in particular always on an empty directory); for `-n ≤ index < n` it
returns the stored file at position `index` (counted from the end when
negative); with no index supplied, an empty directory fails with the
`ValueError` of `random.randint(0, -1)`. -/
theorem load_noise_spec {α : Type} (d : α) (files : List α) (index : ℤ) :
    ((∃ e, load_noise files index = Except.error e) ↔
      (index < -(files.length : ℤ) ∨ (files.length : ℤ) ≤ index)) ∧
    (-(files.length : ℤ) ≤ index → index < (files.length : ℤ) →
      load_noise files index =
        Except.ok (files.getD
          (if 0 ≤ index then index.toNat else (index + files.length).toNat)
          d)) ∧
    (∀ draw : ℤ, files = [] →
      load_noise_random files draw = Except.error LoadError.valueError) := by
  refine ⟨?_, ?_, ?_⟩
  · unfold load_noise pyListGet
    split_ifs with h1 h2 h3 <;> simp <;> omega
  · intro hge hlt
    unfold load_noise pyListGet
    rw [if_pos hlt]
    by_cases h0 : 0 ≤ index
    · rw [dif_pos ⟨h0, hlt⟩, if_pos h0,
        List.getD_eq_getElem _ _ (by omega : index.toNat < files.length)]
      rfl
    · have hneg : index < 0 := by omega
      rw [dif_neg (by omega), dif_pos ⟨hneg, by omega⟩, if_neg h0,
        List.getD_eq_getElem _ _
          (by omega : (index + files.length).toNat < files.length)]
      rfl
  · intro draw hf
    subst hf
    rfl

/-- Witness for C6's amended theorem: three stored files, index `-2`
returns the middle one. -/
theorem load_noise_spec_witness :
    (-(([10, 20, 30] : List ℚ).length : ℤ) ≤ -2) ∧
    ((-2 : ℤ) < (([10, 20, 30] : List ℚ).length : ℤ)) ∧
    load_noise ([10, 20, 30] : List ℚ) (-2) =
      Except.ok (([10, 20, 30] : List ℚ).getD
        (if (0 : ℤ) ≤ -2 then (-2 : ℤ).toNat
          else ((-2 : ℤ) + ([10, 20, 30] : List ℚ).length).toNat) 0) :=
  ⟨by decide, by decide,
    (load_noise_spec 0 ([10, 20, 30] : List ℚ) (-2)).2.1 (by decide)
      (by decide)⟩

theorem ceil_eq_neg_floor_negQ (a : ℚ) : ⌈a⌉ = -⌊-a⌋ := by
  rw [Int.floor_neg, neg_neg]

set_option maxHeartbeats 1000000 in
theorem toy_field_zero :
    ((PerlinNoise.create ℕ id toyRand 1 id (fun a => a + 1) 0 (2, 4) 2
      0).1).render 4 (0, 0) (0.5 : ℚ) (0.5 : ℚ) =
    [[27 / 50, 1007 / 1050, 127 / 1050, 27 / 50],
      [27 / 50, 1, 49 / 1350, 27 / 50]] := by
  have hz : zerosMat (2, 4) = [[0, 0, 0, 0], [0, 0, 0, 0]] := by decide
  have hf0 : Int.fract (0 : ℚ) = 0 := by rw [Int.fract]; norm_num
  have hf1 : Int.fract (1 : ℚ) = 0 := by rw [Int.fract]; norm_num
  have hf4 : Int.fract (4 : ℚ) = 0 := by rw [Int.fract]; norm_num
  have hf43 : Int.fract ((4 : ℚ) / 3) = 1 / 3 := by rw [Int.fract]; norm_num
  have hf83 : Int.fract ((8 : ℚ) / 3) = 2 / 3 := by rw [Int.fract]; norm_num
  norm_num [PerlinNoise.create, PerlinNoise.render, PerlinNoise.render_go,
    PerlinNoise.generate_perlin_noise_2d, PerlinNoise.postprocess,
    PerlinNoise.clip, matMap, matZip, hz, linspace, toyRand,
    nodeVecAt, smooth_step, ceil_eq_neg_floor_negQ, List.range_succ,
    hf0, hf1, hf4, hf43, hf83,
    List.zipWith_cons_cons, min_def, max_def, Function.comp]

set_option maxHeartbeats 1000000 in
theorem toy_field_one :
    ((PerlinNoise.create ℕ id toyRand 1 id (fun a => a + 1) 0 (2, 4) 2
      1).1).render 4 (0, 0) (0.5 : ℚ) (0.5 : ℚ) =
    [[27 / 50, 1, 743 / 9450, 27 / 50], [27 / 50, 1, 0, 27 / 50]] := by
  have hz : zerosMat (2, 4) = [[0, 0, 0, 0], [0, 0, 0, 0]] := by decide
  have hf0 : Int.fract (0 : ℚ) = 0 := by rw [Int.fract]; norm_num
  have hf1 : Int.fract (1 : ℚ) = 0 := by rw [Int.fract]; norm_num
  have hf4 : Int.fract (4 : ℚ) = 0 := by rw [Int.fract]; norm_num
  have hf43 : Int.fract ((4 : ℚ) / 3) = 1 / 3 := by rw [Int.fract]; norm_num
  have hf83 : Int.fract ((8 : ℚ) / 3) = 2 / 3 := by rw [Int.fract]; norm_num
  norm_num [PerlinNoise.create, PerlinNoise.render, PerlinNoise.render_go,
    PerlinNoise.generate_perlin_noise_2d, PerlinNoise.postprocess,
    PerlinNoise.clip, matMap, matZip, hz, linspace, toyRand,
    nodeVecAt, smooth_step, ceil_eq_neg_floor_negQ, List.range_succ,
    hf0, hf1, hf4, hf43, hf83,
    List.zipWith_cons_cons, min_def, max_def, Function.comp]

/-- C8 counterexample: two generated fields, with a directory listing that
enumerates file 1 before file 0 (`os.listdir` returns names in arbitrary
order): `load(index=0)` returns the field generated at index 1, which is
not bit-identical to the field generated at index 0. -/
theorem noise_store_roundtrip_counterexample :
    noise_store_load
        (generate_noise_files ℕ id toyRand 1 id (fun a => a + 1) 0 [0, 1]
          2 4) [1, 0] 0 =
      Except.ok ((generate_noise_files ℕ id toyRand 1 id (fun a => a + 1) 0
        [0, 1] 2 4).getD 1 []) ∧
    (generate_noise_files ℕ id toyRand 1 id (fun a => a + 1) 0 [0, 1]
        2 4).getD 1 [] ≠
      (generate_noise_files ℕ id toyRand 1 id (fun a => a + 1) 0 [0, 1]
        2 4).getD 0 [] := by
  have hg0 : (generate_noise_files ℕ id toyRand 1 id (fun a => a + 1) 0
      [0, 1] 2 4).getD 0 [] =
      [[27 / 50, 1007 / 1050, 127 / 1050, 27 / 50],
        [27 / 50, 1, 49 / 1350, 27 / 50]] := by
    simp only [generate_noise_files, List.map_cons, List.map_nil,
      List.getD_cons_zero]
    exact toy_field_zero
  have hg1 : (generate_noise_files ℕ id toyRand 1 id (fun a => a + 1) 0
      [0, 1] 2 4).getD 1 [] =
      [[27 / 50, 1, 743 / 9450, 27 / 50], [27 / 50, 1, 0, 27 / 50]] := by
    simp only [generate_noise_files, List.map_cons, List.map_nil,
      List.getD_cons_succ, List.getD_cons_zero]
    exact toy_field_one
  refine ⟨rfl, ?_⟩
  rw [hg0, hg1]
  intro h
  have he := congrArg (fun m => matEntry m 0 2) h
  norm_num [matEntry] at he

/-- C8 (amended): after `generate_and_save` writes `n` fields, `load` with
index `i < n` returns, bit-identically, the field generated at index
`order[i]`, where `order` is the (arbitrary) directory-listing order — some
generated field, but the `i`-th one only when the listing order is the
generation order (e.g. `order = range n`). -/
theorem noise_store_load_spec (Rng : Type) (seedFn : ℕ → Rng)
    (rand : Rng → ℕ → ℕ → List (List ℚ) × Rng) (piV : ℚ)
    (cosF sinF : ℚ → ℚ) (g : Rng) (seeds : List ℕ) (len width : ℕ)
    (order : List ℕ) (i : ℕ) (horder : order.length = seeds.length)
    (hmem : ∀ k ∈ order, k < seeds.length) (hi : i < seeds.length) :
    noise_store_load
        (generate_noise_files Rng seedFn rand piV cosF sinF g seeds len
          width) order (i : ℤ) =
      Except.ok ((generate_noise_files Rng seedFn rand piV cosF sinF g seeds
        len width).getD (order.getD i 0) []) ∧
    order.getD i 0 < seeds.length ∧
    (order = List.range seeds.length →
      noise_store_load
          (generate_noise_files Rng seedFn rand piV cosF sinF g seeds len
            width) order (i : ℤ) =
        Except.ok ((generate_noise_files Rng seedFn rand piV cosF sinF g
          seeds len width).getD i [])) := by
  have hi' : i < order.length := by omega
  have hlist : (listdir_fields
      (generate_noise_files Rng seedFn rand piV cosF sinF g seeds len width)
      order).length = order.length := by
    simp [listdir_fields]
  have hmain : noise_store_load
      (generate_noise_files Rng seedFn rand piV cosF sinF g seeds len width)
      order (i : ℤ) =
      Except.ok ((generate_noise_files Rng seedFn rand piV cosF sinF g seeds
        len width).getD (order.getD i 0) []) := by
    unfold noise_store_load load_noise pyListGet
    rw [if_pos (by rw [hlist]; exact_mod_cast hi')]
    rw [dif_pos ⟨Int.natCast_nonneg i, by rw [hlist]; exact_mod_cast hi'⟩]
    congr 1
    rw [List.get_eq_getElem]
    simp only [listdir_fields, Int.toNat_natCast]
    rw [List.getElem_map, List.getD_eq_getElem _ _ hi']
  refine ⟨hmain, ?_, ?_⟩
  · have : order.getD i 0 ∈ order := by
      rw [List.getD_eq_getElem _ _ hi']
      exact List.getElem_mem hi'
    exact hmem _ this
  · intro horder'
    have hr : (List.range seeds.length).getD i 0 = i := by
      rw [List.getD_eq_getElem _ _ (by simpa using hi)]
      exact List.getElem_range _ _
    rw [hmain, horder', hr]

/-- Witness for C8's amended theorem on the two-field toy store with the
identity listing order. -/
theorem noise_store_load_spec_witness :
    (([0, 1] : List ℕ).length = ([0, 1] : List ℕ).length) ∧
    (∀ k ∈ ([0, 1] : List ℕ), k < ([0, 1] : List ℕ).length) ∧
    ((0 : ℕ) < ([0, 1] : List ℕ).length) ∧
    noise_store_load
        (generate_noise_files ℕ id toyRand 1 id (fun a => a + 1) 0 [0, 1]
          2 4) [0, 1] ((0 : ℕ) : ℤ) =
      Except.ok ((generate_noise_files ℕ id toyRand 1 id (fun a => a + 1) 0
        [0, 1] 2 4).getD (([0, 1] : List ℕ).getD 0 0) []) :=
  ⟨rfl, by decide, by decide,
    (noise_store_load_spec ℕ id toyRand 1 id (fun a => a + 1) 0 [0, 1] 2 4
      [0, 1] 0 rfl (by decide) (by decide)).1⟩

/-- Witness for C9's amended theorem: a passing invocation with clock HIGH,
data LOW on the controller's counter produces the up-trace. -/
theorem encoder_callback_spec_witness :
    ((2 : ℚ) ≤ 10 - 0) ∧ (true ≠ false) ∧
    (encoder_callback 2 ⟨0, ⟨80, true, true, 2, (0, 100), [0, 1]⟩⟩ 10
        false true).2 =
      ([0, 1] : List ℕ).map (fun f => (f, min ((80 : ℚ) + 2) 100)) :=
  ⟨by norm_num, by decide,
    ((encoder_callback_spec (⟨80, true, true, 2, (0, 100), [0, 1]⟩ :
      Counter ℕ) 0 10 2 false true (by norm_num)).2.1 (by decide)).1⟩

end Fireplace
